import Mathlib

/-!
Verification of the subsocks proxy: a shallow embedding of the server-side
WebSocket stripper (`wsStripper.Read`, `wsStripper.Write`,
`wsStripper.handshake`) and of the client configuration builders
(`getClientTLSConfig`, `loadCA`, `getClientSSHConfit`, `launchClient`),
with theorems settling the specification claims about them.
-/

namespace Subsocks

/-! ## WebSocket stripper: server-side read path

`wsStripper` wraps a TCP connection; after the upgrade handshake its state
relevant to `Read` is the staging buffer `buf` (a `bytes.Buffer`) and the
stream of inbound WebSocket binary messages obtained from
`wsConn.ReadMessage()`.  We embed the post-handshake state as the staged
bytes plus the list of messages the peer will deliver, in order. -/

/-- Post-handshake read state of `wsStripper`: `staged` is the content of
`w.buf`, `msgs` the remaining inbound message payloads in arrival order. -/
structure WSReadState where
  staged : List Nat
  msgs : List (List Nat)
deriving DecidableEq, Repr

/-- One call of `wsStripper.Read` with a caller buffer of capacity `cap`
(embedding of src/unnamed/part_001 lines 44-64, post-handshake).  If the
staging buffer is non-empty the call returns `w.buf.Read(b)` — the first
`min cap staged.length` staged bytes — without reading a message.
Otherwise it reads the next message `p`, `copy` moves `min cap p.length`
bytes into `b`, and the tail `p[n:]` is written to the staging buffer.
`none` embeds the error return of `ReadMessage` when the message stream is
exhausted (the Go call returns `(0, err)`). -/
def wsReadStep (cap : Nat) (st : WSReadState) : Option (List Nat × WSReadState) :=
  if st.staged.isEmpty then
    match st.msgs with
    | [] => none
    | p :: rest => some (p.take cap, ⟨p.drop cap, rest⟩)
  else
    some (st.staged.take cap, ⟨st.staged.drop cap, st.msgs⟩)

/-- All bytes the stripper still owes the caller: staged bytes first, then
the payloads of the unread messages in order. -/
def wsRemaining (st : WSReadState) : List Nat :=
  st.staged ++ st.msgs.flatten

/-- Repeated `Read` calls, each with capacity `cap`, until `ReadMessage`
fails or `fuel` runs out; returns the concatenation of the bytes returned
to the caller. -/
def wsReadAll (cap : Nat) : Nat → WSReadState → List Nat
  | 0, _ => []
  | fuel + 1, st =>
    match wsReadStep cap st with
    | none => []
    | some (out, st') => out ++ wsReadAll cap fuel st'

/-- Termination measure: bytes still owed plus number of unread messages. -/
def wsMeasure (st : WSReadState) : Nat :=
  (wsRemaining st).length + st.msgs.length

lemma wsReadStep_conserves (cap : Nat) (st : WSReadState) (out : List Nat)
    (st' : WSReadState) (h : wsReadStep cap st = some (out, st')) :
    out ++ wsRemaining st' = wsRemaining st := by
  unfold wsReadStep at h
  by_cases hs : st.staged.isEmpty
  · simp only [hs, if_true] at h
    match hm : st.msgs with
    | [] => rw [hm] at h; exact absurd h (by simp)
    | p :: rest =>
      rw [hm] at h
      injection h with h1
      injection h1 with hout hst
      subst hout; subst hst
      simp only [wsRemaining, hm, List.flatten_cons]
      rw [List.isEmpty_iff] at hs
      simp [hs, ← List.append_assoc, List.take_append_drop]
  · simp only [hs, if_false] at h
    injection h with h1
    injection h1 with hout hst
    subst hout; subst hst
    simp only [wsRemaining]
    simp [← List.append_assoc, List.take_append_drop]

lemma wsReadStep_decreases (cap : Nat) (st : WSReadState) (out : List Nat)
    (st' : WSReadState) (hcap : 0 < cap)
    (h : wsReadStep cap st = some (out, st')) :
    wsMeasure st' < wsMeasure st := by
  unfold wsReadStep at h
  by_cases hs : st.staged.isEmpty
  · simp only [hs, if_true] at h
    match hm : st.msgs with
    | [] => rw [hm] at h; exact absurd h (by simp)
    | p :: rest =>
      rw [hm] at h
      injection h with h1
      injection h1 with hout hst
      subst hout; subst hst
      rw [List.isEmpty_iff] at hs
      simp only [wsMeasure, wsRemaining, hm, hs, List.flatten_cons,
        List.length_append, List.length_cons, List.length_drop,
        List.nil_append]
      omega
  · simp only [hs, if_false] at h
    injection h with h1
    injection h1 with hout hst
    subst hout; subst hst
    have hlen : 0 < st.staged.length := by
      cases hl : st.staged with
      | nil => rw [hl] at hs; exact absurd rfl hs
      | cons a l => simp [hl]
    simp only [wsMeasure, wsRemaining, List.length_append, List.length_drop]
    omega

lemma wsReadAll_complete (cap fuel : Nat) (st : WSReadState) (hcap : 0 < cap)
    (hfuel : wsMeasure st < fuel) :
    wsReadAll cap fuel st = wsRemaining st := by
  induction fuel generalizing st with
  | zero => omega
  | succ n ih =>
    unfold wsReadAll
    match hstep : wsReadStep cap st with
    | none =>
      unfold wsReadStep at hstep
      by_cases hs : st.staged.isEmpty
      · simp only [hs, if_true] at hstep
        match hm : st.msgs with
        | [] =>
          rw [List.isEmpty_iff] at hs
          show ([] : List Nat) = wsRemaining st
          simp [wsRemaining, hs, hm]
        | p :: rest => rw [hm] at hstep; exact absurd hstep (by simp)
      · simp only [hs, if_false] at hstep
        exact absurd hstep (by simp)
    | some (out, st') =>
      have hlt := wsReadStep_decreases cap st out st' hcap hstep
      show out ++ wsReadAll cap n st' = wsRemaining st
      rw [ih st' (by omega)]
      exact wsReadStep_conserves cap st out st' hstep

/-- C1: a `Read` with empty staging buffer returns the first
`min cap p.length` bytes of the next message `p` and stages the tail;
a `Read` with non-empty staging buffer serves staged bytes without
consuming a message; and driving `Read` with any positive capacity until
the message stream errors out returns exactly the concatenation of the
staged bytes and the message payloads, in order, with no byte lost or
duplicated. -/
theorem wsStripper_read_correct :
    (∀ cap p rest, wsReadStep cap ⟨[], p :: rest⟩ =
        some (p.take cap, ⟨p.drop cap, rest⟩) ∧
        (p.take cap).length = min cap p.length) ∧
    (∀ cap st, ¬st.staged.isEmpty → wsReadStep cap st =
        some (st.staged.take cap, ⟨st.staged.drop cap, st.msgs⟩)) ∧
    (∀ cap st out st', wsReadStep cap st = some (out, st') →
        out ++ wsRemaining st' = wsRemaining st) ∧
    (∀ cap fuel st, 0 < cap → wsMeasure st < fuel →
        wsReadAll cap fuel st = wsRemaining st) := by
  refine ⟨?_, ?_, wsReadStep_conserves, wsReadAll_complete⟩
  · intro cap p rest
    constructor
    · simp [wsReadStep]
    · simp [List.length_take, Nat.min_comm]
  · intro cap st hs
    simp [wsReadStep, hs]

/-- Concrete run of C1: capacity 2, one staged byte and messages
`[10,11,12]` and `[13]`; the reads return all five bytes in order. -/
theorem wsStripper_read_correct_witness :
    wsReadStep 2 ⟨[], [10, 11, 12] :: [[13]]⟩ =
      some ([10, 11], ⟨[12], [[13]]⟩) ∧
    wsReadAll 2 10 ⟨[9], [[10, 11, 12], [13]]⟩ = [9, 10, 11, 12, 13] := by
  constructor
  · exact (wsStripper_read_correct.1 2 [10, 11, 12] [[13]]).1
  · have h := wsStripper_read_correct.2.2.2 2 10 ⟨[9], [[10, 11, 12], [13]]⟩
      (by decide) (by decide)
    rw [h]; decide

/-! ## WebSocket stripper: server-side write path -/

/-- Result of one `wsStripper.Write` call: bytes reported written, the
error if any, and the updated trace of messages sent on the wire. -/
structure WSWriteResult where
  n : Nat
  error : Option Unit
  sent : List (List Nat)
deriving DecidableEq, Repr

/-- One call of `wsStripper.Write` (src/unnamed/part_001 lines 66-79,
post-handshake).  `ok` is whether the underlying
`wsConn.WriteMessage(websocket.BinaryMessage, b)` succeeds; `sent` is the
trace of binary-message payloads already on the wire.  On success the
whole buffer `b` goes out as one binary message and `len(b)` is reported;
on failure the call reports `(0, err)` and nothing is appended. -/
def wsWrite (ok : Bool) (sent : List (List Nat)) (b : List Nat) : WSWriteResult :=
  if ok then ⟨b.length, none, sent ++ [b]⟩
  else ⟨0, some (), sent⟩

/-- C7: a successful `Write` emits exactly one binary message whose
payload is the entire argument buffer and reports `len(b)` bytes written;
a failed `Write` reports 0 bytes, returns the error, and emits nothing. -/
theorem wsStripper_write_one_message (ok : Bool) (sent : List (List Nat))
    (b : List Nat) :
    (ok = true → wsWrite ok sent b = ⟨b.length, none, sent ++ [b]⟩) ∧
    (ok = false → wsWrite ok sent b = ⟨0, some (), sent⟩) := by
  constructor <;> intro h <;> subst h <;> simp [wsWrite]

/-- Concrete run of C7: writing `[1,2,3]` over a working connection sends
it as one message and reports 3; over a broken one reports 0 and an
error. -/
theorem wsStripper_write_one_message_witness :
    wsWrite true [[9]] [1, 2, 3] = ⟨3, none, [[9], [1, 2, 3]]⟩ ∧
    wsWrite false [[9]] [1, 2, 3] = ⟨0, some (), [[9]]⟩ :=
  ⟨(wsStripper_write_one_message true [[9]] [1, 2, 3]).1 rfl,
   (wsStripper_write_one_message false [[9]] [1, 2, 3]).2 rfl⟩

/-! ## WebSocket stripper: upgrade handshake

`wsStripper.handshake` reads HTTP requests off the TCP connection in a
loop.  A request whose URL path differs from `server.Config.WSPath`, or
whose `Connection` header is not `Upgrade`, or whose `Upgrade` header is
not `websocket`, gets a 404 response written back and the loop reads the
next request from the same buffered reader; the first request passing all
three checks breaks the loop and is handed to `upgrader.Upgrade`. -/

/-- The parts of an inbound HTTP request that `wsStripper.handshake`
inspects: `req.URL.Path`, `req.Header.Get("Connection")` and
`req.Header.Get("Upgrade")`. -/
structure HTTPReq where
  path : String
  connectionHdr : String
  upgradeHdr : String
deriving DecidableEq, Repr

/-- The check of src/unnamed/part_001 lines 88-90: the request proceeds to
the upgrade exactly when the path equals the configured WS path and the
headers request a websocket upgrade. -/
def wsUpgradeMatch (wsPath : String) (r : HTTPReq) : Bool :=
  r.path = wsPath && r.connectionHdr = "Upgrade" && r.upgradeHdr = "websocket"

/-- The handshake loop (src/unnamed/part_001 lines 81-102) over the
requests arriving on the connection, in order.  Returns the status codes
of the responses written to the connection and the request handed to
`upgrader.Upgrade`; `none` embeds the error return of `http.ReadRequest`
when the request stream is exhausted. -/
def wsHandshakeLoop (wsPath : String) : List HTTPReq → List Nat × Option HTTPReq
  | [] => ([], none)
  | r :: rs =>
    if wsUpgradeMatch wsPath r then ([], some r)
    else
      let (resps, m) := wsHandshakeLoop wsPath rs
      (404 :: resps, m)

lemma wsHandshakeLoop_first_match (wsPath : String) (pre : List HTTPReq)
    (r : HTTPReq) (post : List HTTPReq)
    (hpre : ∀ q ∈ pre, wsUpgradeMatch wsPath q = false)
    (hr : wsUpgradeMatch wsPath r = true) :
    wsHandshakeLoop wsPath (pre ++ r :: post) =
      (List.replicate pre.length 404, some r) := by
  induction pre with
  | nil => simp [wsHandshakeLoop, hr]
  | cons q qs ih =>
    have hq := hpre q (List.mem_cons_self q qs)
    have hqs : ∀ x ∈ qs, wsUpgradeMatch wsPath x = false :=
      fun x hx => hpre x (List.mem_cons_of_mem q hx)
    simp [wsHandshakeLoop, hq, ih hqs, List.replicate_succ]

lemma wsHandshakeLoop_no_match (wsPath : String) (reqs : List HTTPReq)
    (h : ∀ q ∈ reqs, wsUpgradeMatch wsPath q = false) :
    wsHandshakeLoop wsPath reqs = (List.replicate reqs.length 404, none) := by
  induction reqs with
  | nil => simp [wsHandshakeLoop]
  | cons q qs ih =>
    have hq := h q (List.mem_cons_self q qs)
    have hqs : ∀ x ∈ qs, wsUpgradeMatch wsPath x = false :=
      fun x hx => h x (List.mem_cons_of_mem q hx)
    simp [wsHandshakeLoop, hq, ih hqs, List.replicate_succ]

/-- C2: every request before the first one matching the configured path
and upgrade headers receives a 404 response and the loop keeps reading
further requests from the same connection; the first matching request is
the one handed to the WebSocket upgrade.  If no request ever matches,
every request gets a 404 and no upgrade happens. -/
theorem wsHandshake_404_then_upgrade (wsPath : String) :
    (∀ pre r post, (∀ q ∈ pre, wsUpgradeMatch wsPath q = false) →
        wsUpgradeMatch wsPath r = true →
        wsHandshakeLoop wsPath (pre ++ r :: post) =
          (List.replicate pre.length 404, some r)) ∧
    (∀ reqs, (∀ q ∈ reqs, wsUpgradeMatch wsPath q = false) →
        wsHandshakeLoop wsPath reqs = (List.replicate reqs.length 404, none)) :=
  ⟨fun pre r post hpre hr => wsHandshakeLoop_first_match wsPath pre r post hpre hr,
   fun reqs h => wsHandshakeLoop_no_match wsPath reqs h⟩

/-- Concrete run of C2: two probes (wrong path; right path but plain GET)
each get a 404, then a proper upgrade request on `/chat` is accepted. -/
theorem wsHandshake_404_then_upgrade_witness :
    wsHandshakeLoop "/chat"
      [⟨"/wrong", "Upgrade", "websocket"⟩, ⟨"/chat", "keep-alive", ""⟩,
       ⟨"/chat", "Upgrade", "websocket"⟩] =
      ([404, 404], some ⟨"/chat", "Upgrade", "websocket"⟩) := by
  have h := (wsHandshake_404_then_upgrade "/chat").1
    [⟨"/wrong", "Upgrade", "websocket"⟩, ⟨"/chat", "keep-alive", ""⟩]
    ⟨"/chat", "Upgrade", "websocket"⟩ [] (by decide) (by decide)
  simpa using h

/-! ## Client TLS configuration (src/client.go lines 107-163)

`getClientTLSConfig` loads the CA pool, splits the host out of the server
address, and branches on whether `net.ParseIP` accepts the host.  The Go
standard-library pieces (`net.SplitHostPort`, `net.ParseIP`, PEM loading,
`x509.Certificate.Verify`) are modelled from their documented behaviour;
the x509 chain verification itself is an external library call and is a
parameter `x509Verify` of the embedding, receiving exactly the inputs the
code passes it: the leaf certificate, the configured root pool, and the
remaining peer certificates as intermediates. -/

/-- A parsed X.509 certificate (contents abstract: the code never inspects
certificates itself, it only hands them to the x509 library). -/
structure Cert where
  id : Nat
deriving DecidableEq, Repr

/-- The pool `x509.CertPool`: the set of certificates added to the pool. -/
def CertPool := List Cert
deriving instance DecidableEq, Repr for CertPool

/-- Model of the Go standard library `net.SplitHostPort` as used at
src/client.go line 112: returns the host part of `host:port`, stripping
one level of square brackets; the code discards the error, and on error
`SplitHostPort` returns an empty host, so the model returns `""` when
there is no colon, when a bracketed host is malformed, or when an
unbracketed host itself contains a colon. -/
def splitHost (addr : String) : String :=
  let cs := addr.data
  match (cs.reverse.splitOn ':').head?.map List.reverse with
  | none => ""
  | some port =>
    if port.length = cs.length then ""
    else
      let host := cs.take (cs.length - port.length - 1)
      if host.head? = some '[' then
        if host.getLast? = some ']' then String.mk (host.drop 1).dropLast
        else ""
      else if host.contains ':' then "" else String.mk host

/-- Model of the Go standard library `net.ParseIP` as used at
src/client.go line 113, restricted to what the branch needs: a dotted-quad
IPv4 literal (four decimal fields, each at most three digits with no
excess leading zero, value at most 255) or an IPv6 textual form
(approximated as: contains a colon).  A domain name parses as neither. -/
def isIPLiteral (s : String) : Bool :=
  let fieldVal := fun (f : List Char) =>
    f.foldl (fun a c => 10 * a + (c.toNat - 48)) 0
  let v4field := fun (f : List Char) =>
    f.length > 0 && f.length ≤ 3 && f.all Char.isDigit &&
      (f.head? ≠ some '0' || f.length = 1) &&
      fieldVal f ≤ 255
  let parts := s.data.splitOn '.'
  (parts.length = 4 && parts.all v4field) || s.data.contains ':'

/-- Errors surfaced by `loadCA` (src/client.go lines 150-163). -/
inductive CAErr where
  | readFailed
  | appendFailed
deriving DecidableEq, Repr

/-- A CA bundle file on disk, abstracted to the certificates its PEM data
parses to (`AppendCertsFromPEM` reports success iff at least one
certificate was appended). -/
structure CAFile where
  certs : List Cert
deriving DecidableEq, Repr

/-- The function `loadCA` (src/client.go lines 150-163): with an empty path it returns
the zero values — a nil pool and no error.  Otherwise it reads the file
(`fs` maps a path to its content, `none` embedding a read error) and
appends its PEM certificates, failing if none parse. -/
def loadCA (fs : String → Option CAFile) (caFile : String) :
    Except CAErr (Option CertPool) :=
  if caFile = "" then .ok none
  else
    match fs caFile with
    | none => .error .readFailed
    | some data =>
      if data.certs.isEmpty then .error .appendFailed
      else .ok (some data.certs)

/-- Outcome of the `VerifyConnection` closure installed in the IP-literal
branch (src/client.go lines 116-137).  `panicked` embeds the Go runtime
fault (index out of range) raised by the access `certs[0]` when
`cs.PeerCertificates` is empty. -/
inductive VerifyOutcome where
  | ok
  | fail
  | panicked
deriving DecidableEq, Repr

/-- The `VerifyConnection` closure of src/client.go lines 116-137.
`x509Verify leaf roots inters` embeds `certs[0].Verify(opts)` with
`opts.Roots` the configured pool, `opts.Intermediates` holding every peer
certificate after the first, and no DNS name (the server name is never
consulted); `none` means the chain verified.  If `skipVerify` is set the
closure returns nil before touching the certificates.  Otherwise it
evaluates `certs[0]`, which faults when the peer sent no certificates. -/
def verifyConnection (x509Verify : Cert → Option CertPool → List Cert → Option Unit)
    (skipVerify : Bool) (rootCAs : Option CertPool) (peerCerts : List Cert) :
    VerifyOutcome :=
  if skipVerify then .ok
  else
    match peerCerts with
    | [] => .panicked
    | leaf :: inters =>
      match x509Verify leaf rootCAs inters with
      | none => .ok
      | some _ => .fail

/-- The `tls.Config` values `getClientTLSConfig` can build: the IP-literal
branch carries the installed manual verifier (name verification disabled
via `InsecureSkipVerify: true`); the domain branch carries `ServerName`,
`RootCAs` and `InsecureSkipVerify` for standard verification. -/
inductive ClientTLSConfig where
  | ipManual (verify : List Cert → VerifyOutcome)
  | domain (serverName : String) (rootCAs : Option CertPool)
      (insecureSkipVerify : Bool)

/-- The function `getClientTLSConfig` (src/client.go lines 107-148): load the CA pool,
split the host out of the address, and pick the verification mode by
whether the host is an IP literal. -/
def getClientTLSConfig
    (x509Verify : Cert → Option CertPool → List Cert → Option Unit)
    (fs : String → Option CAFile) (addr ca : String) (skipVerify : Bool) :
    Except CAErr ClientTLSConfig :=
  match loadCA fs ca with
  | .error e => .error e
  | .ok rootCAs =>
    let serverName := splitHost addr
    if isIPLiteral serverName then
      .ok (.ipManual (verifyConnection x509Verify skipVerify rootCAs))
    else
      .ok (.domain serverName rootCAs skipVerify)

/-- C3: the verification mode is selected by the form of the host.  When
the host is an IP literal the config disables name verification and
installs the manual verifier, which (when not skipping) hands the first
peer certificate, the configured roots and the remaining certificates as
intermediates to x509 chain verification — with no server name in sight;
when the host is a domain, the config is the standard one with
`ServerName` the host, `RootCAs` the configured pool, and
`InsecureSkipVerify` the flag. -/
theorem getClientTLSConfig_branch_by_host
    (x509Verify : Cert → Option CertPool → List Cert → Option Unit)
    (fs : String → Option CAFile) (addr ca : String) (skipVerify : Bool)
    (rootCAs : Option CertPool) (hca : loadCA fs ca = .ok rootCAs) :
    (isIPLiteral (splitHost addr) = true →
      getClientTLSConfig x509Verify fs addr ca skipVerify =
        .ok (.ipManual (verifyConnection x509Verify skipVerify rootCAs)) ∧
      (skipVerify = false → ∀ leaf inters,
        verifyConnection x509Verify skipVerify rootCAs (leaf :: inters) =
          (match x509Verify leaf rootCAs inters with
           | none => .ok
           | some _ => .fail))) ∧
    (isIPLiteral (splitHost addr) = false →
      getClientTLSConfig x509Verify fs addr ca skipVerify =
        .ok (.domain (splitHost addr) rootCAs skipVerify)) := by
  constructor
  · intro hip
    constructor
    · simp [getClientTLSConfig, hca, hip]
    · intro hsv leaf inters
      subst hsv
      simp [verifyConnection]
  · intro hdom
    simp [getClientTLSConfig, hca, hdom]

/-- Concrete run of C3: address `1.2.3.4:443` yields the manual-verifier
config; address `example.com:443` yields the standard config with server
name `example.com`. -/
theorem getClientTLSConfig_branch_by_host_witness :
    (getClientTLSConfig (fun _ _ _ => none) (fun _ => none)
        "1.2.3.4:443" "" false =
      .ok (.ipManual (verifyConnection (fun _ _ _ => none) false none))) ∧
    (getClientTLSConfig (fun _ _ _ => none) (fun _ => none)
        "example.com:443" "" false =
      .ok (.domain "example.com" none false)) := by
  have h1 := getClientTLSConfig_branch_by_host (fun _ _ _ => none)
    (fun _ => none) "1.2.3.4:443" "" false none rfl
  have h2 := getClientTLSConfig_branch_by_host (fun _ _ _ => none)
    (fun _ => none) "example.com:443" "" false none rfl
  refine ⟨(h1.1 (by decide)).1, ?_⟩
  have := h2.2 (by decide)
  simpa [show splitHost "example.com:443" = "example.com" from rfl] using this

/-- C4: `skip_verify` wins over a configured CA.  In the IP-literal branch
the installed verifier returns success without examining the peer
certificates (even an empty or unverifiable list); in the domain branch
`InsecureSkipVerify` is set on the config even though `RootCAs` carries
the configured pool. -/
theorem skipVerify_overrides_ca
    (x509Verify : Cert → Option CertPool → List Cert → Option Unit)
    (fs : String → Option CAFile) (addr ca : String)
    (rootCAs : Option CertPool) (peerCerts : List Cert)
    (hca : loadCA fs ca = .ok rootCAs) :
    verifyConnection x509Verify true rootCAs peerCerts = .ok ∧
    (isIPLiteral (splitHost addr) = true →
      getClientTLSConfig x509Verify fs addr ca true =
        .ok (.ipManual (verifyConnection x509Verify true rootCAs))) ∧
    (isIPLiteral (splitHost addr) = false →
      getClientTLSConfig x509Verify fs addr ca true =
        .ok (.domain (splitHost addr) rootCAs true)) := by
  refine ⟨by simp [verifyConnection], ?_, ?_⟩
  · intro hip
    simp [getClientTLSConfig, hca, hip]
  · intro hdom
    simp [getClientTLSConfig, hca, hdom]

/-- Concrete run of C4: a CA bundle holding one certificate is configured,
a chain verifier that rejects everything is installed, yet with
`skip_verify` the manual verifier accepts and the domain config carries
`InsecureSkipVerify = true` next to the loaded pool. -/
theorem skipVerify_overrides_ca_witness :
    verifyConnection (fun _ _ _ => some ()) true (some [⟨7⟩]) [⟨1⟩] = .ok ∧
    getClientTLSConfig (fun _ _ _ => some ())
        (fun p => if p = "ca.pem" then some ⟨[⟨7⟩]⟩ else none)
        "example.com:443" "ca.pem" true =
      .ok (.domain "example.com" (some [⟨7⟩]) true) := by
  have h := skipVerify_overrides_ca (fun _ _ _ => some ())
    (fun p => if p = "ca.pem" then some ⟨[⟨7⟩]⟩ else none)
    "example.com:443" "ca.pem" (some [⟨7⟩]) [⟨1⟩] (by simp [loadCA])
  refine ⟨h.1, ?_⟩
  have := h.2.2 (by decide)
  simpa [show splitHost "example.com:443" = "example.com" from rfl] using this

/-- C9 as stated is false: with `skip_verify` unset, the manual verifier
evaluates `certs[0]` before any check, so a connection state whose
`PeerCertificates` list is empty makes it fault with an index-out-of-range
panic instead of returning a verification error. -/
theorem verifyConnection_empty_certs_faults :
    verifyConnection (fun _ _ _ => none) false (some [⟨0⟩]) [] =
      .panicked := rfl

/-- C9 amended: the manual verifier returns a value (success or a
verification error) on every connection state in which either
`skip_verify` is set or the peer presented at least one certificate; only
the empty-certificate, non-skipping case faults. -/
theorem verifyConnection_total_on_nonempty
    (x509Verify : Cert → Option CertPool → List Cert → Option Unit)
    (skipVerify : Bool) (rootCAs : Option CertPool) (peerCerts : List Cert)
    (h : skipVerify = true ∨ peerCerts ≠ []) :
    verifyConnection x509Verify skipVerify rootCAs peerCerts ≠ .panicked := by
  rcases h with h | h
  · subst h; simp [verifyConnection]
  · match peerCerts with
    | [] => exact absurd rfl h
    | leaf :: inters =>
      cases skipVerify
      · cases hx : x509Verify leaf rootCAs inters <;>
          simp [verifyConnection, hx]
      · simp [verifyConnection]

/-- Concrete run of C9 (amended): one peer certificate, verification not
skipped — the verifier returns a value. -/
theorem verifyConnection_total_on_nonempty_witness :
    verifyConnection (fun _ _ _ => none) false none [⟨3⟩] ≠ .panicked :=
  verifyConnection_total_on_nonempty (fun _ _ _ => none) false none [⟨3⟩]
    (Or.inr (by simp))

/-- C10: `loadCA` with an empty path returns a nil pool and no error, so a
client configured without a `ca` entry builds its TLS config with a nil
root pool instead of failing at startup — in both the IP-literal and the
domain branch. -/
theorem loadCA_empty_path_nil_pool
    (x509Verify : Cert → Option CertPool → List Cert → Option Unit)
    (fs : String → Option CAFile) (addr : String) (skipVerify : Bool) :
    loadCA fs "" = .ok none ∧
    getClientTLSConfig x509Verify fs addr "" skipVerify =
      .ok (if isIPLiteral (splitHost addr) then
             .ipManual (verifyConnection x509Verify skipVerify none)
           else .domain (splitHost addr) none skipVerify) := by
  constructor
  · simp [loadCA]
  · by_cases hip : isIPLiteral (splitHost addr) <;>
      simp [getClientTLSConfig, loadCA, hip]

/-! ## Client SSH configuration (src/client.go lines 165-200)

`getClientSSHConfit` builds an `ssh.ClientConfig`.  The key-parsing calls
(`ssh.ParsePrivateKey`, `ssh.ParsePrivateKeyWithPassphrase`) are external
library calls and are parameters of the embedding; key files on disk are
abstracted to their byte content. -/

/-- An `ssh.Signer` produced by parsing a private key. -/
structure Signer where
  id : Nat
deriving DecidableEq, Repr

/-- The contents of a private-key file. -/
structure KeyData where
  bytes : List Nat
deriving DecidableEq, Repr

/-- An entry of `ssh.ClientConfig.Auth`. -/
inductive AuthMethod where
  | password (pw : String)
  | publicKeys (s : Signer)
deriving DecidableEq, Repr

/-- Errors surfaced by `getClientSSHConfit`: reading the key file failed,
or parsing the key failed. -/
inductive SSHErr where
  | readKeyFailed
  | parseKeyFailed
deriving DecidableEq, Repr

/-- The parts of `ssh.ClientConfig` the code sets: the user name, the auth
methods in order, and the host-key callback (a function of host name,
remote address and presented host key, returning an error to reject). -/
structure SSHClientConfig where
  user : String
  auth : List AuthMethod
  hostKeyCallback : String → String → Nat → Option Unit

/-- The callback `ssh.InsecureIgnoreHostKey()`: a callback that accepts every host
key. -/
def insecureIgnoreHostKey : String → String → Nat → Option Unit :=
  fun _ _ _ => none

/-- The function `getClientSSHConfit` (src/client.go lines 165-200; the name keeps the
source's spelling).  Starts from an empty auth list and the accept-all
host-key callback; adds password auth (and sets the user) when both
username and password are non-empty; when a key path is given, reads the
file (`fs`, with `none` a read error) and parses it — with the passphrase
when one is configured, without one otherwise — failing on parse error,
else appending public-key auth. -/
def getClientSSHConfit (parseKey : KeyData → Option Signer)
    (parseKeyPass : KeyData → String → Option Signer)
    (fs : String → Option KeyData)
    (username password key passphrase : String) :
    Except SSHErr SSHClientConfig :=
  let base : SSHClientConfig := ⟨"", [], insecureIgnoreHostKey⟩
  let cfg1 :=
    if username ≠ "" ∧ password ≠ "" then
      { base with user := username, auth := base.auth ++ [.password password] }
    else base
  if key = "" then .ok cfg1
  else
    match fs key with
    | none => .error .readKeyFailed
    | some pem =>
      match (if passphrase ≠ "" then parseKeyPass pem passphrase
             else parseKey pem) with
      | none => .error .parseKeyFailed
      | some signer => .ok { cfg1 with auth := cfg1.auth ++ [.publicKeys signer] }

/-- C5: every SSH client configuration the client constructs carries the
accept-all host-key callback — for any host name, remote address and host
key it returns no error. -/
theorem sshConfig_hostkey_accept_all (parseKey : KeyData → Option Signer)
    (parseKeyPass : KeyData → String → Option Signer)
    (fs : String → Option KeyData)
    (username password key passphrase : String) (cfg : SSHClientConfig)
    (h : getClientSSHConfit parseKey parseKeyPass fs
        username password key passphrase = .ok cfg) :
    ∀ hostname remote hostKey, cfg.hostKeyCallback hostname remote hostKey = none := by
  intro hostname remote hostKey
  unfold getClientSSHConfit at h
  dsimp only at h
  repeat' split at h
  all_goals first
    | (injection h with h1; subst h1; rfl)
    | exact absurd h (by simp)

/-- Concrete run of C5: a password-plus-key configuration is built and its
host-key callback accepts an arbitrary host key. -/
theorem sshConfig_hostkey_accept_all_witness :
    getClientSSHConfit (fun _ => some ⟨5⟩) (fun _ _ => some ⟨6⟩)
        (fun _ => some ⟨[1]⟩) "alice" "s3cret" "id_rsa" "" =
      .ok ⟨"alice", [.password "s3cret", .publicKeys ⟨5⟩],
           insecureIgnoreHostKey⟩ ∧
    (⟨"alice", [.password "s3cret", .publicKeys ⟨5⟩],
      insecureIgnoreHostKey⟩ : SSHClientConfig).hostKeyCallback
        "example.com" "1.2.3.4:22" 42 = none := by
  refine ⟨rfl, ?_⟩
  exact sshConfig_hostkey_accept_all (fun _ => some ⟨5⟩) (fun _ _ => some ⟨6⟩)
    (fun _ => some ⟨[1]⟩) "alice" "s3cret" "id_rsa" "" _ rfl
    "example.com" "1.2.3.4:22" 42

lemma getClientSSHConfit_eq (parseKey : KeyData → Option Signer)
    (parseKeyPass : KeyData → String → Option Signer)
    (fs : String → Option KeyData)
    (username password key passphrase : String) :
    getClientSSHConfit parseKey parseKeyPass fs
        username password key passphrase =
      (let pwAuth := if username ≠ "" ∧ password ≠ ""
         then [AuthMethod.password password] else []
       let user := if username ≠ "" ∧ password ≠ "" then username else ""
       if key = "" then .ok ⟨user, pwAuth, insecureIgnoreHostKey⟩
       else
         match fs key with
         | none => .error .readKeyFailed
         | some pem =>
           match (if passphrase ≠ "" then parseKeyPass pem passphrase
                  else parseKey pem) with
           | none => .error .parseKeyFailed
           | some s =>
             .ok ⟨user, pwAuth ++ [.publicKeys s], insecureIgnoreHostKey⟩) := by
  unfold getClientSSHConfit
  dsimp only
  by_cases hup : username ≠ "" ∧ password ≠ "" <;> simp [hup]

/-- C6: on success, the configuration contains a password auth method
exactly when both username and password are non-empty (and only then is
the user name set); it contains a public-key auth method exactly when a
key path is given, the key being parsed with the passphrase when one is
configured and without one otherwise; and a key that fails to parse yields
an error instead of a config. -/
theorem sshConfig_auth_methods (parseKey : KeyData → Option Signer)
    (parseKeyPass : KeyData → String → Option Signer)
    (fs : String → Option KeyData)
    (username password key passphrase : String) :
    (∀ cfg, getClientSSHConfit parseKey parseKeyPass fs
        username password key passphrase = .ok cfg →
      cfg.user = (if username ≠ "" ∧ password ≠ "" then username else "") ∧
      (∀ pw, AuthMethod.password pw ∈ cfg.auth ↔
        (pw = password ∧ username ≠ "" ∧ password ≠ "")) ∧
      (∀ s, AuthMethod.publicKeys s ∈ cfg.auth → key ≠ "") ∧
      (key ≠ "" → ∃ pem s, fs key = some pem ∧
        (if passphrase ≠ "" then parseKeyPass pem passphrase
         else parseKey pem) = some s ∧
        AuthMethod.publicKeys s ∈ cfg.auth)) ∧
    (∀ pem, key ≠ "" → fs key = some pem →
      (if passphrase ≠ "" then parseKeyPass pem passphrase
       else parseKey pem) = none →
      getClientSSHConfit parseKey parseKeyPass fs
          username password key passphrase = .error .parseKeyFailed) := by
  rw [getClientSSHConfit_eq]
  dsimp only
  constructor
  · intro cfg h
    by_cases hk : key = ""
    · rw [if_pos hk] at h
      injection h with h1
      subst h1
      refine ⟨rfl, ?_, ?_, fun hk' => absurd hk hk'⟩
      · intro pw
        by_cases hup : username ≠ "" ∧ password ≠ "" <;>
          simp [hup, And.comm]
      · intro s hs
        by_cases hup : username ≠ "" ∧ password ≠ "" <;>
          simp [hup] at hs
    · rw [if_neg hk] at h
      match hfs : fs key with
      | none => rw [hfs] at h; exact absurd h (by simp)
      | some pem =>
        rw [hfs] at h
        dsimp only at h
        match hp : (if passphrase ≠ "" then parseKeyPass pem passphrase
                    else parseKey pem) with
        | none => rw [hp] at h; exact absurd h (by simp)
        | some s =>
          rw [hp] at h
          dsimp only at h
          injection h with h1
          subst h1
          refine ⟨rfl, ?_, fun _ _ => hk, ?_⟩
          · intro pw
            by_cases hup : username ≠ "" ∧ password ≠ "" <;>
              simp [hup, And.comm]
          · intro _
            exact ⟨pem, s, rfl, hp, by simp⟩
  · intro pem hk hfs hp
    rw [if_neg hk, hfs]
    dsimp only
    rw [hp]

/-- Concrete runs of C6: with username and password set and a key with a
passphrase, the config has the user, the password method and the
public-key method parsed with the passphrase; a key that fails to parse
yields an error. -/
theorem sshConfig_auth_methods_witness :
    (getClientSSHConfit (fun _ => none) (fun _ p => if p = "pp" then some ⟨8⟩ else none)
        (fun _ => some ⟨[2]⟩) "alice" "s3cret" "id_rsa" "pp" =
      .ok ⟨"alice", [.password "s3cret", .publicKeys ⟨8⟩],
           insecureIgnoreHostKey⟩) ∧
    (AuthMethod.password "s3cret" ∈
      ([.password "s3cret", .publicKeys ⟨8⟩] : List AuthMethod)) ∧
    getClientSSHConfit (fun _ => none) (fun _ _ => none)
        (fun _ => some ⟨[2]⟩) "alice" "s3cret" "id_rsa" "" =
      .error .parseKeyFailed := by
  refine ⟨rfl, ?_, ?_⟩
  · have h := (sshConfig_auth_methods (fun _ => none)
      (fun _ p => if p = "pp" then some ⟨8⟩ else none)
      (fun _ => some ⟨[2]⟩) "alice" "s3cret" "id_rsa" "pp").1
      ⟨"alice", [.password "s3cret", .publicKeys ⟨8⟩], insecureIgnoreHostKey⟩
      rfl
    exact (h.2.1 "s3cret").mpr ⟨rfl, by simp, by simp⟩
  · exact (sshConfig_auth_methods (fun _ => none) (fun _ _ => none)
      (fun _ => some ⟨[2]⟩) "alice" "s3cret" "id_rsa" "").2
      ⟨[2]⟩ (by simp) rfl (by simp)

/-! ## Client launch (src/client.go lines 19-105)

`launchClient` unmarshals the `[client]` TOML table, installs the
verifier and rules, and builds the TLS and SSH configurations; every
failure goes through `log.Fatalf`, which prints and calls `os.Exit(1)`.
The TOML library, the rule loaders and `cli.Serve` are external calls
modelled as fields of the environment. -/

/-- The `[client]` TOML table of src/client.go lines 20-42, after
`Unmarshal` applied the declared defaults. -/
structure ClientTomlConfig where
  listen : String
  username : String
  password : String
  protocol : String
  addr : String
  httpPath : String
  wsPath : String
  tlsSkipVerify : Bool
  tlsCA : String
  sshKey : String
  sshPassphrase : String
deriving DecidableEq, Repr

/-- What `t.Get` returns for the `users` / `rules` keys: missing, a
string, or a sub-tree (whose `Unmarshal` into a string map may fail,
embedded as `tree none`). -/
inductive TomlVal where
  | absent
  | str (s : String)
  | tree (parsed : Option (List (String × String)))
deriving DecidableEq, Repr

/-- A loaded rule set (`client.Rules`, contents immaterial to launch). -/
structure Rules where
  id : Nat
deriving DecidableEq, Repr

/-- The verifier installed in the config: `utils.VerifyByHtpasswd` for a
string entry, `utils.VerifyByMap` for an inline table. -/
inductive Verifier where
  | byHtpasswd (path : String)
  | byMap (m : List (String × String))
deriving DecidableEq, Repr

/-- Whether the protocol carries TLS.  Modelled from the spec: the
`needsTLS` map lives outside the given sources; §6 lists the protocols
`tcp|tls|http|https|ws|wss|ssh` and §3 marks `tls`, `https` and `wss` as
the TLS-bearing variants. -/
def needsTLS (protocol : String) : Bool :=
  protocol = "tls" || protocol = "https" || protocol = "wss"

/-- The external collaborators of `launchClient` and the outcomes of its
fallible external calls. -/
structure LaunchEnv where
  unmarshal : Option ClientTomlConfig
  users : TomlVal
  rules : TomlVal
  rulesFromFile : String → Option Rules
  rulesFromMap : List (String × String) → Option Rules
  x509Verify : Cert → Option CertPool → List Cert → Option Unit
  caFS : String → Option CAFile
  parseKey : KeyData → Option Signer
  parseKeyPass : KeyData → String → Option Signer
  keyFS : String → Option KeyData
  serveErr : Bool

/-- The fully configured client handed to `Serve`. -/
structure ClientRunning where
  listen : String
  verify : Option Verifier
  rules : Option Rules
  tlsConfig : Option ClientTLSConfig
  sshConfig : Option SSHClientConfig

/-- Result of launching: `exit code` embeds `log.Fatalf` (which calls
`os.Exit(1)`); `running` a client that entered `Serve` with its full
configuration. -/
inductive LaunchOutcome where
  | exit (code : Nat)
  | running (cli : ClientRunning)

/-- The function `launchClient` (src/client.go lines 19-105): unmarshal, then users,
then rules, then TLS when the protocol needs it, then SSH for the `ssh`
protocol, then `Serve`; each failure is a `log.Fatalf`. -/
def launchClient (env : LaunchEnv) : LaunchOutcome :=
  match env.unmarshal with
  | none => .exit 1
  | some config =>
    let verifyRes : Except Unit (Option Verifier) :=
      match env.users with
      | .absent => .ok none
      | .str s => .ok (some (.byHtpasswd s))
      | .tree none => .error ()
      | .tree (some m) => .ok (some (.byMap m))
    match verifyRes with
    | .error _ => .exit 1
    | .ok verify =>
      let rulesRes : Except Unit (Option Rules) :=
        match env.rules with
        | .absent => .ok none
        | .str s =>
          match env.rulesFromFile s with
          | none => .error ()
          | some r => .ok (some r)
        | .tree none => .error ()
        | .tree (some m) =>
          match env.rulesFromMap m with
          | none => .error ()
          | some r => .ok (some r)
      match rulesRes with
      | .error _ => .exit 1
      | .ok rules =>
        let tlsRes : Except Unit (Option ClientTLSConfig) :=
          if needsTLS config.protocol then
            match getClientTLSConfig env.x509Verify env.caFS
                config.addr config.tlsCA config.tlsSkipVerify with
            | .error _ => .error ()
            | .ok c => .ok (some c)
          else .ok none
        match tlsRes with
        | .error _ => .exit 1
        | .ok tlsConfig =>
          let sshRes : Except Unit (Option SSHClientConfig) :=
            if config.protocol = "ssh" then
              match getClientSSHConfit env.parseKey env.parseKeyPass env.keyFS
                  config.username config.password
                  config.sshKey config.sshPassphrase with
              | .error _ => .error ()
              | .ok c => .ok (some c)
            else .ok none
          match sshRes with
          | .error _ => .exit 1
          | .ok sshConfig =>
            if env.serveErr then .exit 1
            else .running ⟨config.listen, verify, rules, tlsConfig, sshConfig⟩

/-- C8: every configuration error met while launching the client — TOML
unmarshal failure, users parse failure, rules parse or load failure, TLS
configuration failure, SSH configuration failure — makes the process exit
with code 1 instead of continuing with a partial configuration. -/
theorem launchClient_config_error_exits_1 (env : LaunchEnv) :
    (env.unmarshal = none → launchClient env = .exit 1) ∧
    (∀ config, env.unmarshal = some config →
      (env.users = .tree none → launchClient env = .exit 1) ∧
      (∀ s, env.rules = .str s → env.rulesFromFile s = none →
        launchClient env = .exit 1) ∧
      (env.rules = .tree none → launchClient env = .exit 1) ∧
      (∀ m, env.rules = .tree (some m) → env.rulesFromMap m = none →
        launchClient env = .exit 1) ∧
      (needsTLS config.protocol = true → ∀ e,
        getClientTLSConfig env.x509Verify env.caFS
            config.addr config.tlsCA config.tlsSkipVerify = .error e →
        launchClient env = .exit 1) ∧
      (config.protocol = "ssh" → ∀ e,
        getClientSSHConfit env.parseKey env.parseKeyPass env.keyFS
            config.username config.password
            config.sshKey config.sshPassphrase = .error e →
        launchClient env = .exit 1)) := by
  constructor
  · intro h
    simp [launchClient, h]
  · intro config hc
    refine ⟨?_, ?_, ?_, ?_, ?_, ?_⟩
    · intro hu
      simp only [launchClient, hc, hu]
    · intro s hr hf
      simp only [launchClient, hc, hr, hf]
      repeat' split
      all_goals simp_all
    · intro hr
      simp only [launchClient, hc, hr]
      repeat' split
      all_goals simp_all
    · intro m hr hf
      simp only [launchClient, hc, hr, hf]
      repeat' split
      all_goals simp_all
    · intro htls e herr
      simp only [launchClient, hc, htls, herr]
      repeat' split
      all_goals simp_all
    · intro hssh e herr
      simp only [launchClient, hc, hssh, herr]
      repeat' split
      all_goals simp_all

/-- Concrete run of C8: a configuration whose rule file fails to load
exits with code 1. -/
theorem launchClient_config_error_exits_1_witness :
    launchClient
      { unmarshal := some ⟨"127.0.0.1:1080", "", "", "tcp", "example.com:80",
          "/", "/", false, "", "", ""⟩
        users := .absent
        rules := .str "rules.txt"
        rulesFromFile := fun _ => none
        rulesFromMap := fun _ => none
        x509Verify := fun _ _ _ => none
        caFS := fun _ => none
        parseKey := fun _ => none
        parseKeyPass := fun _ _ => none
        keyFS := fun _ => none
        serveErr := false } = .exit 1 := by
  exact ((launchClient_config_error_exits_1 _).2
    ⟨"127.0.0.1:1080", "", "", "tcp", "example.com:80",
      "/", "/", false, "", "", ""⟩ rfl).2.1 "rules.txt" rfl rfl

end Subsocks
